import Mathlib

/-!
Verification development for the gcsf repository (a FUSE filesystem over
Google Drive).  The Rust sources are shallowly embedded: stateful structs
become Lean structures, `HashMap`s become association lists, fallible calls
become `Except`, and a Rust panic is modelled as `Except.error` carrying
`AbortKind.panicked`.  Remote (network) behaviour is passed in as explicit
parameters so that every definition is a pure, executable function.
-/

/-- Association-list lookup, modelling `HashMap::get`. -/
def lookupA {α β : Type} [BEq α] : List (α × β) → α → Option β
  | [], _ => none
  | (k, v) :: rest, key => if k == key then some v else lookupA rest key

/-- Association-list removal, modelling `HashMap::remove`. -/
def eraseA {α β : Type} [BEq α] (m : List (α × β)) (k : α) : List (α × β) :=
  m.filter (fun p => !(p.1 == k))

/-- Association-list insert-or-replace, modelling `HashMap::insert`. -/
def insertA {α β : Type} [BEq α] (m : List (α × β)) (k : α) (v : β) : List (α × β) :=
  eraseA m k ++ [(k, v)]

/-! ## DriveFacade: pending writes, flush, read (src/gcsf/drive_facade.rs) -/

/-- One queued write operation, embedding the Rust struct `PendingWrite`
(`drive_facade.rs`): a drive id, an offset and the written bytes. -/
structure PendingWrite where
  wid : String
  offset : Nat
  data : List Nat
deriving Repr, DecidableEq

/-- The part of `DriveFacade` state the claims are about: the per-drive-id
pending-write queues and the LRU content cache (modelled as an association
list keyed by drive id; recency bookkeeping is irrelevant to the claims). -/
structure DfState where
  pendingWrites : List (String × List PendingWrite)
  cache : List (String × List Nat)
deriving Repr, DecidableEq

/-- Embedding of Rust `Vec::resize(n, 0)`: truncates when the vector is
longer than `n` and pads with zeros when it is shorter. -/
def vecResize (v : List Nat) (n : Nat) : List Nat :=
  if n ≤ v.length then v.take n else v ++ List.replicate (n - v.length) 0

/-- One iteration of `DriveFacade::apply_pending_writes_on_data`: the buffer
is resized (unconditionally) to `offset + data.len()` and the byte range
starting at `offset` is overwritten with the write's data
(`data.resize(required_size, 0); data[offset..].copy_from_slice(..)`). -/
def applyWrite (data : List Nat) (w : PendingWrite) : List Nat :=
  let r := vecResize data (w.offset + w.data.length)
  r.take w.offset ++ w.data

/-- Embedding of `DriveFacade::write`: append a `PendingWrite` to the queue
of the given drive id (creating the queue when absent). -/
def dfWrite (st : DfState) (id : String) (offset : Nat) (data : List Nat) : DfState :=
  let q := (lookupA st.pendingWrites id).getD []
  { st with pendingWrites := insertA st.pendingWrites id (q ++ [⟨id, offset, data⟩]) }

/-- Embedding of `DriveFacade::apply_pending_writes_on_data`: fold all queued
writes for `id` (the queue is filtered on `write.id == id`, as in the source)
over the buffer, and remove the queue from the map afterwards. -/
def applyPendingWritesOnData (st : DfState) (id : String) (data : List Nat) :
    DfState × List Nat :=
  let q := (lookupA st.pendingWrites id).getD []
  let out := (q.filter (fun w => w.wid == id)).foldl applyWrite data
  ({ st with pendingWrites := eraseA st.pendingWrites id }, out)

/-- The remote interactions performed by one `flush` call, passed in as data:
the result of `DriveFacade::contains` (`Except.error` models a transport
error), the result of the content download, and whether the upload succeeds. -/
structure RemoteEnv where
  containsRes : Except Unit Bool
  downloadRes : Except Unit (List Nat)
  uploadOk : Bool

/-- Embedding of `DriveFacade::flush`.  Returns the new state, the call's
result, and the content handed to `update_file_content` (`none` when the
upload was never attempted).  Mirrors the source line by line: early return
when no queue exists; cache invalidation; the `if let Ok(false) = contains`
precondition; `get_file_content(..).unwrap_or_default()`;
`apply_pending_writes_on_data`; `update_file_content(..)?`. -/
def dfFlush (st : DfState) (env : RemoteEnv) (id : String) :
    DfState × Except Unit Unit × Option (List Nat) :=
  if lookupA st.pendingWrites id = none then (st, Except.ok (), none)
  else
    let st1 : DfState := { st with cache := eraseA st.cache id }
    match env.containsRes with
    | Except.ok false => (st1, Except.error (), none)
    | _ =>
      let fileData := (env.downloadRes.toOption).getD []
      let p := applyPendingWritesOnData st1 id fileData
      if env.uploadOk then (p.1, Except.ok (), some p.2)
      else (p.1, Except.error (), some p.2)

/-- The slice `bytes[min(len, offset) .. min(len, offset + size)]` used by
`DriveFacade::read`. -/
def sliceClamped (data : List Nat) (offset size : Nat) : List Nat :=
  (data.take (min data.length (offset + size))).drop (min data.length offset)

/-- Embedding of `DriveFacade::read`: consult the cache first; on a miss
download the full content (passed in as `downloadRes`), cache it, and return
the clamped slice; a failed download yields `none`. -/
def dfRead (st : DfState) (id : String) (offset size : Nat)
    (downloadRes : Except Unit (List Nat)) : DfState × Option (List Nat) :=
  match lookupA st.cache id with
  | some data => (st, some (sliceClamped data offset size))
  | none =>
    match downloadRes with
    | Except.ok data =>
        ({ st with cache := insertA st.cache id data },
          some (sliceClamped data offset size))
    | Except.error _ => (st, none)

/-- Embedding of `<DummyFile as Read>::read`, abstracted over the buffer and
data contents (the panic depends only on the lengths).  `copied` is
`min(buf.len(), data.len() - cursor)`; the source then calls
`buf[..].copy_from_slice(&data[cursor..cursor + copied])` whenever
`copied > 0`, which panics unless `buf.len() == copied`.  The result is
`none` for a panic and `some copied` for a normal return. -/
def dummyFileRead (dataLen cursor bufLen : Nat) : Option Nat :=
  let remaining := dataLen - cursor
  let copied := min bufLen remaining
  if 0 < copied ∧ bufLen ≠ copied then none else some copied

/-! ## FileManager: tree, indexes, lookups (src/gcsf/file_manager.rs) -/

/-- Distinguishes the two ways a Rust call can abort: a `panic!` (for example
`Option::unwrap` on `None`) versus an `Err` propagated with `?`. -/
inductive AbortKind where
  | panicked : AbortKind
  | errored : AbortKind
deriving Repr, DecidableEq

/-- The payload of one `id_tree` node: the library-assigned node id and the
inode stored as the node's data. -/
structure NodeData where
  nid : Nat
  ino : Nat
deriving Repr, DecidableEq

/-- A rooted ordered tree, embedding the `id_tree::Tree` used by
`FileManager` (children are kept in insertion order). -/
inductive RTree where
  | node : NodeData → List RTree → RTree

/-- The root payload of a tree. -/
def rootData : RTree → NodeData
  | RTree.node d _ => d

mutual

/-- Embedding of `Tree::get`: find the payload of the node with a given node
id, searching the whole tree. -/
def treeGetT : RTree → Nat → Option NodeData
  | RTree.node d cs, n => if d.nid = n then some d else treeGetL cs n

/-- List companion of `treeGetT`. -/
def treeGetL : List RTree → Nat → Option NodeData
  | [], _ => none
  | t :: ts, n =>
    match treeGetT t n with
    | some r => some r
    | none => treeGetL ts n

end

mutual

/-- Embedding of `Tree::children`: the payloads of the direct children of
the node with the given node id, in order; `none` when the node is absent. -/
def treeChildrenT : RTree → Nat → Option (List NodeData)
  | RTree.node d cs, n =>
    if d.nid = n then some (cs.map rootData) else treeChildrenL cs n

/-- List companion of `treeChildrenT`. -/
def treeChildrenL : List RTree → Nat → Option (List NodeData)
  | [], _ => none
  | t :: ts, n =>
    match treeChildrenT t n with
    | some r => some r
    | none => treeChildrenL ts n

end

mutual

/-- Insert a subtree as the last child of the node with node id `parent`
(the append matches `id_tree`'s `InsertBehavior::UnderNode`); `none` when
the parent is absent. -/
def insTreeT (parent : Nat) (sub : RTree) : RTree → Option RTree
  | RTree.node d cs =>
    if d.nid = parent then some (RTree.node d (cs ++ [sub]))
    else (insTreeL parent sub cs).map (RTree.node d)

/-- List companion of `insTreeT`. -/
def insTreeL (parent : Nat) (sub : RTree) : List RTree → Option (List RTree)
  | [] => none
  | t :: ts =>
    match insTreeT parent sub t with
    | some t2 => some (t2 :: ts)
    | none => (insTreeL parent sub ts).map (fun ts2 => t :: ts2)

end

mutual

/-- Remove the subtree rooted at node id `n`, assuming `n` is strictly below
the root of the tree given; `none` when the node is absent.  This embeds
`Tree::remove_node(.., RemoveBehavior::DropChildren)`, which removes the
node together with all of its descendants. -/
def removeT (n : Nat) : RTree → Option RTree
  | RTree.node d cs => (removeL n cs).map (RTree.node d)

/-- List companion of `removeT`. -/
def removeL (n : Nat) : List RTree → Option (List RTree)
  | [] => none
  | t :: ts =>
    if (rootData t).nid = n then some ts
    else
      match removeT n t with
      | some t2 => some (t2 :: ts)
      | none => (removeL n ts).map (fun ts2 => t :: ts2)

end

mutual

/-- Find the whole subtree rooted at node id `n`. -/
def findT (n : Nat) : RTree → Option RTree
  | RTree.node d cs =>
    if d.nid = n then some (RTree.node d cs) else findL n cs

/-- List companion of `findT`. -/
def findL (n : Nat) : List RTree → Option RTree
  | [] => none
  | t :: ts =>
    match findT n t with
    | some r => some r
    | none => findL n ts

end

mutual

/-- All inodes stored in a subtree (root first). -/
def subtreeInodesT : RTree → List Nat
  | RTree.node d cs => d.ino :: subtreeInodesL cs

/-- List companion of `subtreeInodesT`. -/
def subtreeInodesL : List RTree → List Nat
  | [] => []
  | t :: ts => subtreeInodesT t ++ subtreeInodesL ts

end

/-- Embedding of `Tree::remove_node(node_id, DropChildren)` on a whole tree:
removing the root empties the tree; otherwise the subtree rooted at `n` is
dropped.  The outer `none` is the `Err` case (node absent). -/
def treeRemove (t : RTree) (n : Nat) : Option (Option RTree) :=
  if (rootData t).nid = n then some none
  else (removeT n t).map some

/-- Embedding of `Tree::move_node(a, MoveBehavior::ToParent(b))`: detach the
subtree rooted at `a` and reattach it as the last child of `b`; `none` (the
`Err` case) when either node is absent, when `a` is the root, or when `b`
lies inside the moved subtree. -/
def treeMove (t : RTree) (a b : Nat) : Option RTree :=
  if (rootData t).nid = a then none
  else
    match findT a t, removeT a t with
    | some sub, some rest => insTreeT b sub rest
    | _, _ => none

/-- The remote-metadata record held inside a local file, embedding the
fields of `drive3::File` that `FileManager` consults: the drive id, the
first parent, and the trashed flag. -/
structure DriveFileM where
  fid : Option String
  parent : Option String
  trashed : Option Bool
deriving Repr, DecidableEq

/-- Embedding of the local `File` struct (`src/gcsf/file.rs`): base name,
inode, size and kind from the attributes, the duplicate-name counter, and
the optional remote record. -/
structure MFile where
  name : String
  ino : Nat
  size : Nat
  isDir : Bool
  identicalNameId : Option Nat
  driveFile : Option DriveFileM
deriving Repr, DecidableEq

/-- Embedding of `File::name()`: the reported name, with the duplicate
suffix rendered as `name.N`. -/
def MFile.displayName (f : MFile) : String :=
  match f.identicalNameId with
  | some k => f.name ++ "." ++ toString k
  | none => f.name

/-- Embedding of `File::drive_id()`. -/
def MFile.driveId (f : MFile) : Option String :=
  f.driveFile.bind (fun d => d.fid)

/-- Embedding of `File::drive_parent()` (the first remote parent). -/
def MFile.driveParent (f : MFile) : Option String :=
  f.driveFile.bind (fun d => d.parent)

/-- Embedding of `File::is_trashed()`. -/
def MFile.isTrashed (f : MFile) : Bool :=
  ((f.driveFile.bind (fun d => d.trashed)).getD false)

/-- Embedding of the `FileId` enum: the four ways gcsf identifies a file. -/
inductive FileIdM where
  | inode : Nat → FileIdM
  | driveId : String → FileIdM
  | nodeId : Nat → FileIdM
  | parentAndName : Nat → String → FileIdM
deriving Repr, DecidableEq

/-- Embedding of the `FileManager` state: the file tree (`none` before a
root is inserted), the inode-to-file map, the inode-to-node-id map, the
drive-id-to-inode map, the duplicate-suffix flag, the last assigned inode
and a counter minting fresh `id_tree` node ids. -/
structure FM where
  tree : Option RTree
  files : List (Nat × MFile)
  nodeIds : List (Nat × Nat)
  driveIds : List (String × Nat)
  renameIdenticalFiles : Bool
  lastInode : Nat
  nextNid : Nat

/-- The children of the node holding inode `p`, embedding the computation
`FileManager::get_children` performs when handed `FileId::Inode(p)`:
resolve the node id through the inode index, call
`tree.children(..).unwrap()` (a panic when the node id is stale or the tree
is empty), and keep the files that resolve through the inode-to-file map. -/
def fmGetChildrenI (fm : FM) (p : Nat) : Except AbortKind (Option (List MFile)) :=
  match lookupA fm.nodeIds p with
  | none => Except.ok none
  | some nid =>
    match fm.tree.bind (fun t => treeChildrenT t nid) with
    | none => Except.error AbortKind.panicked
    | some kids => Except.ok (some (kids.filterMap (fun nd => lookupA fm.files nd.ino)))

/-- Embedding of `FileManager::get_inode`.  `Except.error .panicked` records
a Rust panic reached inside the call (via `get_children`'s unwrap). -/
def fmGetInode (fm : FM) : FileIdM → Except AbortKind (Option Nat)
  | FileIdM.inode i => Except.ok (some i)
  | FileIdM.driveId d => Except.ok (lookupA fm.driveIds d)
  | FileIdM.nodeId n =>
      Except.ok ((fm.tree.bind (fun t => treeGetT t n)).map (fun nd => nd.ino))
  | FileIdM.parentAndName p nm =>
    match fmGetChildrenI fm p with
    | Except.error k => Except.error k
    | Except.ok none => Except.ok none
    | Except.ok (some cs) =>
        Except.ok ((cs.find? (fun c => c.displayName == nm)).map (fun c => c.ino))

/-- Embedding of `FileManager::get_node_id`.  For a `DriveId` the source
runs `self.get_inode(..).unwrap()`, which panics when the drive id is not
in the index; that panic is the `Except.error .panicked` branch. -/
def fmGetNodeId (fm : FM) : FileIdM → Except AbortKind (Option Nat)
  | FileIdM.inode i => Except.ok (lookupA fm.nodeIds i)
  | FileIdM.driveId d =>
    match lookupA fm.driveIds d with
    | none => Except.error AbortKind.panicked
    | some i => Except.ok (lookupA fm.nodeIds i)
  | FileIdM.nodeId n => Except.ok (some n)
  | FileIdM.parentAndName p nm =>
    match fmGetInode fm (FileIdM.parentAndName p nm) with
    | Except.error k => Except.error k
    | Except.ok none => Except.ok none
    | Except.ok (some i) => Except.ok (lookupA fm.nodeIds i)

/-- Embedding of `FileManager::get_children` for an arbitrary `FileId`.
On `FileId::Inode` it computes exactly `fmGetChildrenI`. -/
def fmGetChildren (fm : FM) (id : FileIdM) : Except AbortKind (Option (List MFile)) :=
  match fmGetNodeId fm id with
  | Except.error k => Except.error k
  | Except.ok none => Except.ok none
  | Except.ok (some nid) =>
    match fm.tree.bind (fun t => treeChildrenT t nid) with
    | none => Except.error AbortKind.panicked
    | some kids => Except.ok (some (kids.filterMap (fun nd => lookupA fm.files nd.ino)))

/-- Embedding of `FileManager::get_file`. -/
def fmGetFile (fm : FM) (id : FileIdM) : Except AbortKind (Option MFile) :=
  match fmGetInode fm id with
  | Except.error k => Except.error k
  | Except.ok none => Except.ok none
  | Except.ok (some i) => Except.ok (lookupA fm.files i)

/-- Embedding of `FileManager::get_drive_id`. -/
def fmGetDriveId (fm : FM) (id : FileIdM) : Except AbortKind (Option String) :=
  match fmGetFile fm id with
  | Except.error k => Except.error k
  | Except.ok none => Except.ok none
  | Except.ok (some f) => Except.ok f.driveId

/-- Embedding of `FileManager::contains`. -/
def fmContains (fm : FM) : FileIdM → Except AbortKind Bool
  | FileIdM.inode i => Except.ok (lookupA fm.nodeIds i).isSome
  | FileIdM.driveId d => Except.ok (lookupA fm.driveIds d).isSome
  | FileIdM.nodeId n => Except.ok (fm.tree.bind (fun t => treeGetT t n)).isSome
  | FileIdM.parentAndName p nm =>
    match fmGetFile fm (FileIdM.parentAndName p nm) with
    | Except.error k => Except.error k
    | Except.ok r => Except.ok r.isSome

/-- The index updates shared by both branches of `add_file_locally`: store
the new node id under the file's inode, the inode under the file's drive id
when one exists, and the file itself under its inode. -/
def finishAdd (fm : FM) (file : MFile) (nid : Nat) : FM :=
  { fm with
    nodeIds := insertA fm.nodeIds file.ino nid
    driveIds :=
      match file.driveId with
      | some d => insertA fm.driveIds d file.ino
      | none => fm.driveIds
    files := insertA fm.files file.ino file
    nextNid := fm.nextNid + 1 }

/-- Embedding of `FileManager::add_file_locally`.  With a parent: resolve
the parent's node id (`ok_or(..)?` turns `None` into an `Err`; a `DriveId`
parent that is absent from the index panics inside `get_node_id`); when
duplicate-suffix mode is on, count same-base-name siblings and stamp
`identical_name_id = Some(count)` when the count is positive; then insert
the new node under the parent.  Without a parent: insert as root (an
existing root becomes the new node's child, as in `id_tree`). -/
def fmAddFileLocally (fm : FM) (file0 : MFile) (parent : Option FileIdM) :
    Except AbortKind FM :=
  match parent with
  | some pid =>
    match fmGetNodeId fm pid with
    | Except.error k => Except.error k
    | Except.ok none => Except.error AbortKind.errored
    | Except.ok (some parentNid) =>
      let renamed : Except AbortKind MFile :=
        if fm.renameIdenticalFiles then
          match fmGetChildren fm pid with
          | Except.error k => Except.error k
          | Except.ok none => Except.error AbortKind.errored
          | Except.ok (some sibs) =>
            let cnt := (sibs.filter (fun c => c.name == file0.name)).length
            Except.ok (if cnt > 0 then { file0 with identicalNameId := some cnt } else file0)
        else Except.ok file0
      match renamed with
      | Except.error k => Except.error k
      | Except.ok file1 =>
        match fm.tree with
        | none => Except.error AbortKind.errored
        | some t =>
          match insTreeT parentNid (RTree.node ⟨fm.nextNid, file1.ino⟩ []) t with
          | none => Except.error AbortKind.errored
          | some t2 => Except.ok (finishAdd { fm with tree := some t2 } file1 fm.nextNid)
  | none =>
    let newTree :=
      match fm.tree with
      | none => RTree.node ⟨fm.nextNid, file0.ino⟩ []
      | some t => RTree.node ⟨fm.nextNid, file0.ino⟩ [t]
    Except.ok (finishAdd { fm with tree := some newTree } file0 fm.nextNid)

/-- Embedding of `FileManager::delete_locally`: resolve node id, inode and
drive id (each `ok_or(..)?`), remove the subtree with `DropChildren`, and
then erase the `files`, `node_ids` and `drive_ids` entries — of the removed
node only, exactly as in the source. -/
def fmDeleteLocally (fm : FM) (id : FileIdM) : Except AbortKind FM :=
  match fmGetNodeId fm id with
  | Except.error k => Except.error k
  | Except.ok none => Except.error AbortKind.errored
  | Except.ok (some nid) =>
    match fmGetInode fm id with
    | Except.error k => Except.error k
    | Except.ok none => Except.error AbortKind.errored
    | Except.ok (some ino) =>
      match fmGetDriveId fm id with
      | Except.error k => Except.error k
      | Except.ok none => Except.error AbortKind.errored
      | Except.ok (some did) =>
        match fm.tree with
        | none => Except.error AbortKind.errored
        | some t =>
          match treeRemove t nid with
          | none => Except.error AbortKind.errored
          | some t2 =>
            Except.ok { fm with
              tree := t2,
              files := eraseA fm.files ino,
              nodeIds := eraseA fm.nodeIds ino,
              driveIds := eraseA fm.driveIds did }

/-- Embedding of `FileManager::move_locally`: resolve both node ids
(`ok_or(..)?`) and move the subtree. -/
def fmMoveLocally (fm : FM) (id newParent : FileIdM) : Except AbortKind FM :=
  match fmGetNodeId fm id with
  | Except.error k => Except.error k
  | Except.ok none => Except.error AbortKind.errored
  | Except.ok (some cur) =>
    match fmGetNodeId fm newParent with
    | Except.error k => Except.error k
    | Except.ok none => Except.error AbortKind.errored
    | Except.ok (some tgt) =>
      match fm.tree with
      | none => Except.error AbortKind.errored
      | some t =>
        match treeMove t cur tgt with
        | none => Except.error AbortKind.errored
        | some t2 => Except.ok { fm with tree := some t2 }

/-- Store a file under an inode, modelling a write through
`FileManager::get_mut_file`. -/
def fmSetFile (fm : FM) (ino : Nat) (f : MFile) : FM :=
  { fm with files := insertA fm.files ino f }

/-- Embedding of `FileManager::move_file_to_trash`: resolve the node id and
drive id, move the node under the Trash node (inode 2), and when
`also_on_drive` is set, flag the file as trashed locally and call the
remote (whose success is the parameter `remoteOk`).  The state produced so
far is kept when a later step fails, as in the source, so the result is a
pair of the state and an optional abort. -/
def fmMoveFileToTrash (fm : FM) (id : FileIdM) (alsoOnDrive remoteOk : Bool) :
    FM × Option AbortKind :=
  match fmGetNodeId fm id with
  | Except.error k => (fm, some k)
  | Except.ok none => (fm, some AbortKind.errored)
  | Except.ok (some nid) =>
    match fmGetDriveId fm id with
    | Except.error k => (fm, some k)
    | Except.ok none => (fm, some AbortKind.errored)
    | Except.ok (some did) =>
      match fmGetNodeId fm (FileIdM.inode 2) with
      | Except.error k => (fm, some k)
      | Except.ok none => (fm, some AbortKind.errored)
      | Except.ok (some trashNid) =>
        match fm.tree with
        | none => (fm, some AbortKind.errored)
        | some t =>
          match treeMove t nid trashNid with
          | none => (fm, some AbortKind.errored)
          | some t2 =>
            let fm1 : FM := { fm with tree := some t2 }
            if alsoOnDrive then
              match fmGetFile fm1 (FileIdM.driveId did) with
              | Except.error k => (fm1, some k)
              | Except.ok none => (fm1, some AbortKind.errored)
              | Except.ok (some f) =>
                match f.driveFile with
                | none => (fm1, some AbortKind.errored)
                | some dfm =>
                  let fm2 := fmSetFile fm1 f.ino
                    { f with driveFile := some { dfm with trashed := some true } }
                  if remoteOk then (fm2, none) else (fm2, some AbortKind.errored)
            else (fm1, none)

/-! ## File derivation and the sync loop -/

/-- The subset of a remote `drive3::File` record that `File::from_drive_file`
and `FileManager::sync` consult.  The size is the already-parsed value
(`size.parse().unwrap_or_default()` in the source); `none` models an absent
size field. -/
structure DrFile where
  fid : Option String
  name : Option String
  parent : Option String
  mimeType : Option String
  trashed : Option Bool
  size : Option Nat
deriving Repr, DecidableEq

/-- The `EXTENSIONS` map of `src/gcsf/file.rs`. -/
def extFor (mime : String) : Option String :=
  if mime == "application/vnd.google-apps.document" then some "#.odt"
  else if mime == "application/vnd.google-apps.presentation" then some "#.odp"
  else if mime == "application/vnd.google-apps.spreadsheet" then some "#.ods"
  else none

/-- Embedding of `File::is_posix`: the forbidden characters stripped from
remote names. -/
def isPosixChar (c : Char) : Bool :=
  !("*/:<>?\\|".data.contains c)

/-- Name sanitation from `File::from_drive_file`. -/
def posixName (s : String) : String :=
  String.mk (s.data.filter isPosixChar)

/-- Embedding of `File::from_drive_file`: directories are recognised by the
folder mime type and forced to size 512; a missing size defaults to
10 MiB; the document-extension suffix is appended from the `EXTENSIONS`
map; the name is sanitised.  `drive_file.name.clone().unwrap()` panics when
the remote record carries no name. -/
def fromDriveFile (ino : Nat) (df : DrFile) : Except AbortKind MFile :=
  match df.name with
  | none => Except.error AbortKind.panicked
  | some nm0 =>
    let isDir := df.mimeType == some "application/vnd.google-apps.folder"
    let size0 := df.size.getD (10 * 1024 * 1024)
    let size := if isDir then 512 else size0
    let nm1 :=
      match df.mimeType.bind extFor with
      | some e => nm0 ++ e
      | none => nm0
    Except.ok
      { name := posixName nm1, ino := ino, size := size, isDir := isDir,
        identicalNameId := none,
        driveFile := some { fid := df.fid, parent := df.parent, trashed := df.trashed } }

/-- One entry of the remote change feed, embedding `drive3::Change`. -/
structure ChangeM where
  fileId : Option String
  file : Option DrFile
  removed : Option Bool
deriving Repr, DecidableEq

/-- Embedding of the body of the `for` loop in `FileManager::sync` for one
change.  Changes with no attached file are filtered out before the loop;
`change.file_id.unwrap()` panics when the id is missing; a change for an
unknown drive id builds a `File` (panicking when it has no remote parent)
and runs `add_file_locally(.., Some(DriveId(parent)))?`, whose failure —
panic or `Err` — aborts the whole batch; the trashed, removed and
modified branches log their errors and continue.  Returns the new state
and `some k` when the loop aborted. -/
def processChange (fm : FM) (c : ChangeM) : FM × Option AbortKind :=
  match c.file with
  | none => (fm, none)
  | some driveF =>
    match c.fileId with
    | none => (fm, some AbortKind.panicked)
    | some fid =>
      let id := FileIdM.driveId fid
      let s1 : FM × Option AbortKind :=
        match fmContains fm id with
        | Except.error k => (fm, some k)
        | Except.ok true => (fm, none)
        | Except.ok false =>
          let fm1 : FM := { fm with lastInode := fm.lastInode + 1 }
          match fromDriveFile (fm.lastInode + 1) driveF with
          | Except.error k => (fm1, some k)
          | Except.ok f =>
            match f.driveParent with
            | none => (fm1, some AbortKind.panicked)
            | some par =>
              match fmAddFileLocally fm1 f (some (FileIdM.driveId par)) with
              | Except.error k => (fm1, some k)
              | Except.ok fm2 => (fm2, none)
      match s1 with
      | (fmx, some k) => (fmx, some k)
      | (fm2, none) =>
        if driveF.trashed == some true then
          match fmMoveFileToTrash fm2 id false true with
          | (fm3, none) => (fm3, none)
          | (fm3, some AbortKind.errored) => (fm3, none)
          | (fm3, some AbortKind.panicked) => (fm3, some AbortKind.panicked)
        else if c.removed == some true then
          match fmDeleteLocally fm2 id with
          | Except.ok fm3 => (fm3, none)
          | Except.error AbortKind.errored => (fm2, none)
          | Except.error AbortKind.panicked => (fm2, some AbortKind.panicked)
        else
          match fmGetFile fm2 id with
          | Except.error k => (fm2, some k)
          | Except.ok none => (fm2, none)
          | Except.ok (some oldF) =>
            match fromDriveFile oldF.ino driveF with
            | Except.error k => (fm2, some k)
            | Except.ok newF =>
              let fm3 := fmSetFile fm2 oldF.ino newF
              match newF.driveParent with
              | none => (fm3, some AbortKind.panicked)
              | some np =>
                match fmMoveLocally fm3 id (FileIdM.driveId np) with
                | Except.ok fm4 => (fm4, none)
                | Except.error AbortKind.errored => (fm3, none)
                | Except.error AbortKind.panicked => (fm3, some AbortKind.panicked)

/-- The change-processing loop of `FileManager::sync` over a whole batch:
stops at the first change whose processing aborts (an `Err` propagated by
`?`, or a panic), leaving the remaining changes unprocessed. -/
def processChanges (fm : FM) : List ChangeM → FM × Option AbortKind
  | [] => (fm, none)
  | c :: cs =>
    match processChange fm c with
    | (fm2, none) => processChanges fm2 cs
    | (fm2, some k) => (fm2, some k)

/-! ## Filesystem adapter (src/gcsf/filesystem.rs) -/

/-- Errno constant used by the adapter. -/
def ENOENT : Nat := 2

/-- Errno constant used by the adapter. -/
def ENOTDIR : Nat := 20

/-- Errno constant used by the adapter. -/
def EROFS : Nat := 30

/-- Errno constant used by the adapter. -/
def EREMOTE : Nat := 66

/-- Errno constant used by the adapter. -/
def ENOTRECOVERABLE : Nat := 131

/-- A kernel reply, covering the reply channels the modelled upcalls use
(entries and attrs are reduced to the inode and size reported). -/
inductive ReplyM where
  | entry : Nat → Nat → ReplyM
  | attrR : Nat → Nat → ReplyM
  | dataR : List Nat → ReplyM
  | written : Nat → ReplyM
  | created : Nat → Nat → ReplyM
  | okR : ReplyM
  | dirEntries : List (Nat × String) → ReplyM
  | statfsR : Nat → Nat → ReplyM
  | errR : Nat → ReplyM
deriving Repr, DecidableEq

/-- The kernel upcalls named by the read-only contract. -/
inductive Upcall where
  | lookupU : Nat → String → Upcall
  | getattrU : Nat → Upcall
  | readU : Nat → Nat → Nat → Upcall
  | writeU : Nat → Int → List Nat → Upcall
  | setattrU : Nat → Option Nat → Upcall
  | createU : Nat → String → Upcall
  | mkdirU : Nat → String → Upcall
  | unlinkU : Nat → String → Upcall
  | renameU : Nat → String → Nat → String → Upcall
  | readdirU : Nat → Nat → Upcall
  | statfsU : Upcall
deriving Repr, DecidableEq

/-- Whether an upcall is one of the six mutating operations of the
read-only contract. -/
def isMutatingUpcall : Upcall → Bool
  | Upcall.writeU _ _ _ => true
  | Upcall.setattrU _ _ => true
  | Upcall.createU _ _ => true
  | Upcall.mkdirU _ _ => true
  | Upcall.unlinkU _ _ => true
  | Upcall.renameU _ _ _ _ => true
  | _ => false

/-- The whole mounted-system state: the file manager, the drive facade
buffers, the remote file contents and change feed (data standing in for
the network), the `skip_trash` configuration flag, whether remote mutating
calls succeed, a counter minting server-assigned drive ids, and the
storage quota reported by the remote. -/
structure SysState where
  fm : FM
  df : DfState
  remote : List (String × List Nat)
  remoteChanges : List ChangeM
  skipTrash : Bool
  remoteOk : Bool
  nextRemoteId : Nat
  quotaUsage : Nat
  quotaLimit : Option Nat

/-- Embedding of `FileManager::delete` (`delete_locally` followed by the
remote permanent delete, whose success is `remoteOk`).  On a failed remote
call the local deletion persists, as in the source. -/
def fmDeleteFull (fm : FM) (id : FileIdM) (remoteOk : Bool) : FM × Option AbortKind :=
  match fmGetDriveId fm id with
  | Except.error k => (fm, some k)
  | Except.ok none => (fm, some AbortKind.errored)
  | Except.ok (some _) =>
    match fmDeleteLocally fm id with
    | Except.error k => (fm, some k)
    | Except.ok fm2 =>
      if remoteOk then (fm2, none) else (fm2, some AbortKind.errored)

/-- Embedding of `FileManager::rename`: re-identify the file by inode, move
its node under the new parent, then — only when duplicate-suffix mode is
enabled — update the stored name and recount same-named siblings; finally
resolve both drive ids and call the remote `move_to` (success `remoteOk`).
Partial mutations persist on failure, as in the source. -/
def fmRename (fm : FM) (id0 : FileIdM) (newParent : Nat) (newName : String)
    (remoteOk : Bool) : FM × Option AbortKind :=
  match fmGetInode fm id0 with
  | Except.error k => (fm, some k)
  | Except.ok none => (fm, some AbortKind.errored)
  | Except.ok (some i) =>
    match fmGetNodeId fm (FileIdM.inode i) with
    | Except.error k => (fm, some k)
    | Except.ok none => (fm, some AbortKind.errored)
    | Except.ok (some cur) =>
      match fmGetNodeId fm (FileIdM.inode newParent) with
      | Except.error k => (fm, some k)
      | Except.ok none => (fm, some AbortKind.errored)
      | Except.ok (some tgt) =>
        match fm.tree with
        | none => (fm, some AbortKind.errored)
        | some t =>
          match treeMove t cur tgt with
          | none => (fm, some AbortKind.errored)
          | some t2 =>
            let fm1 : FM := { fm with tree := some t2 }
            let step2 : FM × Option AbortKind :=
              if fm1.renameIdenticalFiles then
                match fmGetChildren fm1 (FileIdM.inode newParent) with
                | Except.error k => (fm1, some k)
                | Except.ok none => (fm1, some AbortKind.errored)
                | Except.ok (some sibs) =>
                  let cnt := (sibs.filter (fun c => c.name == newName)).length
                  match lookupA fm1.files i with
                  | none => (fm1, some AbortKind.errored)
                  | some f =>
                    let f1 := { f with
                      name := newName,
                      identicalNameId := if cnt > 0 then some cnt else none }
                    (fmSetFile fm1 i f1, none)
              else (fm1, none)
            match step2 with
            | (fmx, some k) => (fmx, some k)
            | (fm2, none) =>
              match fmGetDriveId fm2 (FileIdM.inode i) with
              | Except.error k => (fm2, some k)
              | Except.ok none => (fm2, some AbortKind.errored)
              | Except.ok (some _) =>
                match fmGetDriveId fm2 (FileIdM.inode newParent) with
                | Except.error k => (fm2, some k)
                | Except.ok none => (fm2, some AbortKind.errored)
                | Except.ok (some _) =>
                  if remoteOk then (fm2, none) else (fm2, some AbortKind.errored)

/-- The file built by the `create` upcall before the remote id is stamped
on it (`filesystem.rs`): a regular file of size 0 whose remote record names
the parent's drive id. -/
def newCreateFile (ino : Nat) (nm : String) (isDir : Bool) (pdid : String) : MFile :=
  { name := nm, ino := ino, size := if isDir then 512 else 0, isDir := isDir,
    identicalNameId := none,
    driveFile := some { fid := none, parent := some pdid, trashed := none } }

/-- Shared body of the `create` and `mkdir` upcalls: parent checks
(`ENOTDIR` twice), inode allocation, remote create (success `st.remoteOk`,
minting a fresh drive id), `set_drive_id`, `add_file_locally`, and the
`created`/`EREMOTE` replies. -/
def coreCreate (st : SysState) (parent : Nat) (nm : String) (isDir : Bool) :
    Except AbortKind (SysState × ReplyM) :=
  if (lookupA st.fm.nodeIds parent).isSome = false then
    Except.ok (st, ReplyM.errR ENOTDIR)
  else
    match fmContains st.fm (FileIdM.parentAndName parent nm) with
    | Except.error k => Except.error k
    | Except.ok true => Except.ok (st, ReplyM.errR ENOTDIR)
    | Except.ok false =>
      match fmGetDriveId st.fm (FileIdM.inode parent) with
      | Except.error k => Except.error k
      | Except.ok none => Except.error AbortKind.panicked
      | Except.ok (some pdid) =>
        let fm1 : FM := { st.fm with lastInode := st.fm.lastInode + 1 }
        let ino := st.fm.lastInode + 1
        let f0 := newCreateFile ino nm isDir pdid
        if st.remoteOk then
          let did := "remote" ++ toString st.nextRemoteId
          let f1 := { f0 with
            driveFile := some { fid := some did, parent := some pdid, trashed := none } }
          match fmAddFileLocally fm1 f1 (some (FileIdM.inode parent)) with
          | Except.error AbortKind.panicked => Except.error AbortKind.panicked
          | Except.error AbortKind.errored =>
            Except.ok ({ st with fm := fm1, nextRemoteId := st.nextRemoteId + 1 },
              ReplyM.errR EREMOTE)
          | Except.ok fm2 =>
            Except.ok ({ st with fm := fm2, nextRemoteId := st.nextRemoteId + 1 },
              ReplyM.created ino (if isDir then 512 else 0))
        else Except.ok ({ st with fm := fm1 }, ReplyM.errR EREMOTE)

/-- The adapter's upcall dispatch with the read-only gate removed: each
branch embeds the corresponding `impl Filesystem for Gcsf` method from
`src/gcsf/filesystem.rs`, composed with the `FileManager` and `DriveFacade`
operations it calls.  `Except.error` records a panic escaping the upcall. -/
def coreStep (st : SysState) : Upcall → Except AbortKind (SysState × ReplyM)
  | Upcall.lookupU p nm =>
    match fmGetFile st.fm (FileIdM.parentAndName p nm) with
    | Except.error k => Except.error k
    | Except.ok (some f) => Except.ok (st, ReplyM.entry f.ino f.size)
    | Except.ok none => Except.ok (st, ReplyM.errR ENOENT)
  | Upcall.getattrU ino =>
    match lookupA st.fm.files ino with
    | some f => Except.ok (st, ReplyM.attrR f.ino f.size)
    | none => Except.ok (st, ReplyM.errR ENOENT)
  | Upcall.readU ino offset size =>
    if (lookupA st.fm.nodeIds ino).isSome = false then
      Except.ok (st, ReplyM.errR ENOENT)
    else
      match lookupA st.fm.files ino with
      | none => Except.error AbortKind.panicked
      | some f =>
        match f.driveId with
        | none => Except.error AbortKind.panicked
        | some did =>
          let dl : Except Unit (List Nat) :=
            match lookupA st.remote did with
            | some d => Except.ok d
            | none => Except.error ()
          let p := dfRead st.df did offset size dl
          Except.ok ({ st with df := p.1 }, ReplyM.dataR (p.2.getD []))
  | Upcall.writeU ino offset data =>
    let offn := (max offset 0).toNat
    match fmGetDriveId st.fm (FileIdM.inode ino) with
    | Except.error k => Except.error k
    | Except.ok none => Except.error AbortKind.panicked
    | Except.ok (some did) =>
      let df2 := dfWrite st.df did offn data
      match lookupA st.fm.files ino with
      | some f =>
        let fm2 := fmSetFile st.fm ino { f with size := offn + data.length }
        Except.ok ({ st with fm := fm2, df := df2 }, ReplyM.written data.length)
      | none => Except.ok ({ st with df := df2 }, ReplyM.errR ENOENT)
  | Upcall.setattrU ino sz =>
    if (lookupA st.fm.nodeIds ino).isSome = false then
      Except.ok (st, ReplyM.errR ENOENT)
    else
      match lookupA st.fm.files ino with
      | none => Except.error AbortKind.panicked
      | some f =>
        let f2 := { f with size := sz.getD f.size }
        Except.ok ({ st with fm := fmSetFile st.fm ino f2 },
          ReplyM.attrR ino (sz.getD f.size))
  | Upcall.createU parent nm => coreCreate st parent nm false
  | Upcall.mkdirU parent nm => coreCreate st parent nm true
  | Upcall.unlinkU parent nm =>
    let id := FileIdM.parentAndName parent nm
    match fmContains st.fm id with
    | Except.error k => Except.error k
    | Except.ok false => Except.ok (st, ReplyM.errR ENOENT)
    | Except.ok true =>
      match fmGetFile st.fm id with
      | Except.error k => Except.error k
      | Except.ok none => Except.ok (st, ReplyM.errR EREMOTE)
      | Except.ok (some f) =>
        let pr : FM × Option AbortKind :=
          if f.isTrashed then fmDeleteFull st.fm id st.remoteOk
          else if st.skipTrash then fmDeleteFull st.fm id st.remoteOk
          else fmMoveFileToTrash st.fm id true st.remoteOk
        match pr.2 with
        | none => Except.ok ({ st with fm := pr.1 }, ReplyM.okR)
        | some AbortKind.errored =>
          Except.ok ({ st with fm := pr.1 }, ReplyM.errR ENOTRECOVERABLE)
        | some AbortKind.panicked => Except.error AbortKind.panicked
  | Upcall.renameU parent nm newparent newname =>
    match fmGetInode st.fm (FileIdM.parentAndName parent nm) with
    | Except.error k => Except.error k
    | Except.ok r =>
      let id := FileIdM.inode (r.getD 0)
      if newparent = 2 then
        let pr1 := fmRename st.fm id parent newname st.remoteOk
        match pr1.2 with
        | some AbortKind.panicked => Except.error AbortKind.panicked
        | ra =>
          let pr2 := fmMoveFileToTrash pr1.1 id true st.remoteOk
          match pr2.2 with
          | some AbortKind.panicked => Except.error AbortKind.panicked
          | rb =>
            if ra = none ∧ rb = none then
              Except.ok ({ st with fm := pr2.1 }, ReplyM.okR)
            else Except.ok ({ st with fm := pr2.1 }, ReplyM.errR EREMOTE)
      else
        let pr := fmRename st.fm id newparent newname st.remoteOk
        match pr.2 with
        | none => Except.ok ({ st with fm := pr.1 }, ReplyM.okR)
        | some AbortKind.errored =>
          Except.ok ({ st with fm := pr.1 }, ReplyM.errR ENOTRECOVERABLE)
        | some AbortKind.panicked => Except.error AbortKind.panicked
  | Upcall.readdirU ino offset =>
    let pr := processChanges st.fm st.remoteChanges
    match pr.2 with
    | some AbortKind.panicked => Except.error AbortKind.panicked
    | _ =>
      let st2 : SysState := { st with fm := pr.1, remoteChanges := [] }
      match fmGetChildren pr.1 (FileIdM.inode ino) with
      | Except.error k => Except.error k
      | Except.ok none => Except.ok (st2, ReplyM.errR ENOENT)
      | Except.ok (some cs) =>
        Except.ok (st2,
          ReplyM.dirEntries ((cs.drop offset).map (fun c => (c.ino, c.displayName))))
  | Upcall.statfsU =>
    let size := st.quotaUsage
    let capacity := st.quotaLimit.getD (2 ^ 63 - 1)
    let blocks := capacity / 512 + (if capacity % 512 > 0 then 1 else 0)
    let bfree := (capacity - size) / 512
    Except.ok (st, ReplyM.statfsR blocks bfree)

/-- Modelled from the spec: the adapter's read-only mount mode.  The
provided sources contain no `read_only` flag at all (neither
`src/gcsf/filesystem.rs` nor `src/gcsf/config.rs` mentions it), although
the spec's configuration schema lists `read_only=false` and its upcall
table prescribes `EROFS` for every mutating upcall in read-only mode.
Following the spec's words, the gate rejects the six mutating upcalls with
`EROFS` before any local state is touched and leaves the remaining upcalls
to behave exactly as without the flag. -/
def gcsfStep (readOnly : Bool) (st : SysState) (u : Upcall) :
    Except AbortKind (SysState × ReplyM) :=
  if readOnly && isMutatingUpcall u then Except.ok (st, ReplyM.errR EROFS)
  else coreStep st u

/-! ## Duplicate-suffix recalculation (modelled from the spec) -/

/-- Comparison of two characters by code point. -/
def charLe (a b : Char) : Bool :=
  decide (a.val.toNat ≤ b.val.toNat)

/-- Lexicographic comparison of two character lists. -/
def strLeAux : List Char → List Char → Bool
  | [], _ => true
  | _ :: _, [] => false
  | a :: as, b :: bs => if a = b then strLeAux as bs else charLe a b

/-- Lexicographic string comparison (the order `String::cmp` gives drive
ids), written out over the character lists so that it evaluates. -/
def strLe (x y : String) : Bool :=
  strLeAux x.data y.data

/-- Modelled from the spec: the sort key used by the duplicate-suffix rule,
"sorting those children by their drive id (None sorts first)". -/
def dkeyLe (a b : MFile) : Bool :=
  match a.driveId, b.driveId with
  | none, _ => true
  | some _, none => false
  | some x, some y => strLe x y

/-- Modelled from the spec: the suffix assigned to one child by the
duplicate-suffix rule.  The child's group of same-base-name siblings is
sorted by drive id (`None` first) and the child's position in that order
becomes its `identical_name_id` (`None` for position 0, `Some i`
otherwise).  This models `recalculate_duplicate_suffixes_for_parent`, which
is called by `src/tests.rs` but absent from the provided sources. -/
def assignSuffix (cs : List MFile) (c : MFile) : MFile :=
  let grp := cs.filter (fun d => d.name == c.name)
  let srt := List.insertionSort (fun a b => dkeyLe a b = true) grp
  let idx := srt.findIdx (fun d => d.ino == c.ino)
  { c with identicalNameId := if idx = 0 then none else some idx }

/-- Modelled from the spec: recompute the `identical_name_id` of every
child of one parent (spec invariant 5). -/
def recalcSuffixes (cs : List MFile) : List MFile :=
  cs.map (assignSuffix cs)

/-- Modelled from the spec: adding a file to a parent directory followed by
the suffix recomputation the spec requires after every add. -/
def specAddChild (cs : List MFile) (f : MFile) : List MFile :=
  recalcSuffixes (cs ++ [f])

/-- Modelled from the spec: deleting the child with a given inode followed
by the suffix recomputation the spec requires after every delete. -/
def specRemoveChild (cs : List MFile) (i : Nat) : List MFile :=
  recalcSuffixes (cs.filter (fun c => !(c.ino == i)))

/-- Modelled from the spec: a rename arriving in a parent directory (the
renamed file joins the parent's children under its new base name), followed
by the suffix recomputation the spec requires after every move or rename. -/
def specRenameInto (cs : List MFile) (f : MFile) (newName : String) : List MFile :=
  recalcSuffixes (cs ++ [{ f with name := newName }])

/-- The multiset of suffixes the spec's invariant 5 prescribes for a group
of k same-named children: {None, Some 1, …, Some (k−1)}. -/
def expectedSuffixes (k : Nat) : List (Option Nat) :=
  (List.range k).map (fun i => if i = 0 then none else some i)

/-! ## Spec-side definitions and concrete fixtures -/

/-- The replay step as the spec words it, written down only to be compared
with `applyWrite`: the buffer grows to `offset + len` when it is shorter,
and the byte range `[offset, offset + len)` is overwritten, leaving any
bytes beyond that range in place. -/
def specApplyWrite (data : List Nat) (w : PendingWrite) : List Nat :=
  let grown :=
    if data.length < w.offset + w.data.length then
      data ++ List.replicate (w.offset + w.data.length - data.length) 0
    else data
  grown.take w.offset ++ w.data ++ grown.drop (w.offset + w.data.length)

deriving instance DecidableEq for Except

/-- Fixture: the root directory of the example states. -/
def fileRootEx : MFile :=
  { name := ".", ino := 1, size := 512, isDir := true, identicalNameId := none,
    driveFile := some { fid := some "root", parent := none, trashed := none } }

/-- Fixture: a regular file (inode 4, drive id "a") sitting under the root. -/
def fileAEx : MFile :=
  { name := "a.txt", ino := 4, size := 5, isDir := false, identicalNameId := none,
    driveFile := some { fid := some "a", parent := some "root", trashed := none } }

/-- Fixture: a regular file (inode 5, drive id "b") sitting under inode 4. -/
def fileBEx : MFile :=
  { name := "b.txt", ino := 5, size := 7, isDir := false, identicalNameId := none,
    driveFile := some { fid := some "b", parent := some "a", trashed := none } }

/-- Fixture: the tree root(nid 1, ino 1) → (nid 2, ino 4) → (nid 3, ino 5). -/
def treeEx : RTree :=
  RTree.node ⟨1, 1⟩ [RTree.node ⟨2, 4⟩ [RTree.node ⟨3, 5⟩ []]]

/-- Fixture: a populated file manager with consistent indexes. -/
def fmEx : FM :=
  { tree := some treeEx,
    files := [(1, fileRootEx), (4, fileAEx), (5, fileBEx)],
    nodeIds := [(1, 1), (4, 2), (5, 3)],
    driveIds := [("root", 1), ("a", 4), ("b", 5)],
    renameIdenticalFiles := false, lastInode := 5, nextNid := 4 }

/-- Fixture: an empty drive facade. -/
def dfEx : DfState := { pendingWrites := [], cache := [] }

/-- Fixture: a full system state over `fmEx`. -/
def stEx : SysState :=
  { fm := fmEx, df := dfEx, remote := [("a", [1, 2, 3, 4, 5])], remoteChanges := [],
    skipTrash := false, remoteOk := true, nextRemoteId := 1,
    quotaUsage := 1000, quotaLimit := some 100000 }

/-- Fixture: a "p.jpg" child with drive id "a" (scenario 4 of the spec). -/
def filePaEx : MFile :=
  { name := "p.jpg", ino := 101, size := 1, isDir := false, identicalNameId := none,
    driveFile := some { fid := some "a", parent := none, trashed := none } }

/-- Fixture: a second "p.jpg" child with drive id "b". -/
def filePbEx : MFile :=
  { name := "p.jpg", ino := 102, size := 1, isDir := false, identicalNameId := none,
    driveFile := some { fid := some "b", parent := none, trashed := none } }

/-- Fixture: `fmEx` with one extra drive-id entry `"c" -> 7` whose inode 7
has no node-id entry — the stale-index shape `delete_locally` leaves behind
for descendants. -/
def fmEx2 : FM :=
  { fmEx with driveIds := fmEx.driveIds ++ [("c", 7)] }

/-! ## Shared lemmas -/

theorem lookupA_eraseA_self {α β : Type} [BEq α] [LawfulBEq α]
    (m : List (α × β)) (k : α) : lookupA (eraseA m k) k = none := by
  induction m with
  | nil => rfl
  | cons p rest ih =>
    by_cases h : p.1 = k
    · simp [eraseA, lookupA, h] at ih ⊢
      simpa [eraseA] using ih
    · have hb : (p.1 == k) = false := by simpa using h
      simp [eraseA, lookupA, hb] at ih ⊢
      simpa [eraseA] using ih

theorem lookupA_eraseA_ne {α β : Type} [BEq α] [LawfulBEq α]
    (m : List (α × β)) (k j : α) (h : j ≠ k) :
    lookupA (eraseA m k) j = lookupA m j := by
  induction m with
  | nil => rfl
  | cons p rest ih =>
    by_cases hp : p.1 = k
    · have hbj : (p.1 == j) = false := by
        simp [hp]
        exact fun hjk => h hjk.symm
      have hbk : (p.1 == k) = true := by simpa using hp
      simp only [eraseA, List.filter_cons, hbk, Bool.not_true, if_false, lookupA, hbj]
      simpa [eraseA] using ih
    · have hb : (p.1 == k) = false := by simpa using hp
      simp only [eraseA, List.filter_cons, hb, Bool.not_false, if_true, lookupA]
      by_cases hj : (p.1 == j) = true
      · simp [hj]
      · simp only [Bool.not_eq_true] at hj
        simp only [hj]
        simpa [eraseA] using ih

theorem lookupA_append {α β : Type} [BEq α]
    (m₁ m₂ : List (α × β)) (k : α) :
    lookupA (m₁ ++ m₂) k =
      match lookupA m₁ k with
      | some v => some v
      | none => lookupA m₂ k := by
  induction m₁ with
  | nil => simp [lookupA]
  | cons p rest ih =>
    by_cases h : (p.1 == k) = true
    · simp [lookupA, h]
    · simp only [Bool.not_eq_true] at h
      simp [lookupA, h, ih]

theorem lookupA_insertA_self {α β : Type} [BEq α] [LawfulBEq α]
    (m : List (α × β)) (k : α) (v : β) : lookupA (insertA m k v) k = some v := by
  rw [insertA, lookupA_append, lookupA_eraseA_self]
  simp [lookupA]

theorem lookupA_insertA_ne {α β : Type} [BEq α] [LawfulBEq α]
    (m : List (α × β)) (k j : α) (v : β) (h : j ≠ k) :
    lookupA (insertA m k v) j = lookupA m j := by
  rw [insertA, lookupA_append, lookupA_eraseA_ne m k j h]
  cases hm : lookupA m j with
  | some w => rfl
  | none =>
    have hb : (k == j) = false := by
      simp
      exact fun hkj => h hkj.symm
    simp [lookupA, hb]

theorem lookupA_mem {α β : Type} [BEq α] (m : List (α × β)) (k : α) (v : β)
    (h : lookupA m k = some v) : ∃ p ∈ m, (p.1 == k) = true ∧ p.2 = v := by
  induction m with
  | nil => simp [lookupA] at h
  | cons p rest ih =>
    by_cases hb : (p.1 == k) = true
    · simp only [lookupA, hb, if_true, Option.some_inj] at h
      exact ⟨p, List.mem_cons_self p rest, hb, h⟩
    · simp only [Bool.not_eq_true] at hb
      simp only [lookupA, hb, if_false] at h
      rcases ih h with ⟨q, hq, hqk, hqv⟩
      exact ⟨q, List.mem_cons_of_mem p hq, hqk, hqv⟩

theorem sliceClamped_eq (d : List Nat) (offset size : Nat) :
    sliceClamped d offset size = (d.drop offset).take size := by
  unfold sliceClamped
  rcases le_or_lt d.length offset with h | h
  · rw [min_eq_left (by omega : d.length ≤ offset + size), min_eq_left h,
      List.take_length, List.drop_length, List.drop_eq_nil_of_le h, List.take_nil]
  · rw [min_eq_right (le_of_lt h), List.drop_take, List.take_eq_take]
    simp only [List.length_drop]
    omega

theorem applyWrite_eq (v : List Nat) (w : PendingWrite) :
    applyWrite v w =
      v.take w.offset ++ List.replicate (w.offset - v.length) 0 ++ w.data := by
  unfold applyWrite vecResize
  split_ifs with h
  · dsimp only
    rw [List.take_take, min_eq_left (by omega : w.offset ≤ w.offset + w.data.length)]
    have h2 : w.offset - v.length = 0 := by omega
    rw [h2]
    simp
  · dsimp only
    rw [List.take_append_eq_append_take, List.take_replicate,
      min_eq_left (by omega : w.offset - v.length ≤ w.offset + w.data.length - v.length)]

theorem applyWrite_length (v : List Nat) (w : PendingWrite) :
    (applyWrite v w).length = w.offset + w.data.length := by
  rw [applyWrite_eq]
  simp only [List.length_append, List.length_take, List.length_replicate]
  omega

/-! ## Claim theorems -/

/-- C10: `DummyFile::read` violates the `Read` contract: whenever the
remaining bytes `r = data.len() - cursor` satisfy `0 < r < buf.len()`, the
call panics (the whole destination buffer is the `copy_from_slice` target
for `r` source bytes) instead of filling a prefix and returning `r`; with
`r = 0` or `r ≥ buf.len()` it returns normally.  Since `DummyFile` is the
body of every upload, `flush` and `create` are exposed to this panic. -/
theorem dummy_file_read_panics (dataLen cursor bufLen : Nat)
    (hc : cursor ≤ dataLen) :
    (dummyFileRead dataLen cursor bufLen = none ↔
      0 < dataLen - cursor ∧ dataLen - cursor < bufLen) := by
  unfold dummyFileRead
  dsimp only
  split_ifs with h
  · simp only [true_iff]
    omega
  · simp only [reduceCtorEq, false_iff, not_and, not_lt]
    omega

/-- Witness for C10 at `data.len() = 5`, `cursor = 3`, `buf.len() = 4`:
two bytes remain, the buffer is larger, and the read panics. -/
theorem dummy_file_read_panics_witness :
    3 ≤ 5 ∧ (dummyFileRead 5 3 4 = none ↔ 0 < 5 - 3 ∧ 5 - 3 < 4) :=
  ⟨by omega, dummy_file_read_panics 5 3 4 (by omega)⟩

/-- C9: `DriveFacade::read` consults the content cache first and returns
the clamped slice of the cached content; on a miss it downloads the entire
content, inserts it into the cache, and returns the clamped slice; and the
clamped slice always equals `(bytes.drop offset).take size`, so
out-of-range requests yield an empty or truncated slice, never an error. -/
theorem read_cache_then_slice (st : DfState) (id : String) (offset size : Nat)
    (dl : Except Unit (List Nat)) :
    (∀ c, lookupA st.cache id = some c →
      dfRead st id offset size dl = (st, some (sliceClamped c offset size))) ∧
    (∀ d, lookupA st.cache id = none → dl = Except.ok d →
      dfRead st id offset size dl =
        ({ st with cache := insertA st.cache id d },
          some (sliceClamped d offset size))) ∧
    (∀ d : List Nat, sliceClamped d offset size = (d.drop offset).take size) := by
  refine ⟨?_, ?_, fun d => sliceClamped_eq d offset size⟩
  · intro c hc
    unfold dfRead
    rw [hc]
  · intro d hnone hdl
    unfold dfRead
    rw [hnone, hdl]

/-- Witness for C9: a cache hit on `"x"` returns the slice of the cached
bytes, and a cache miss followed by a successful download caches the
downloaded bytes and returns their slice. -/
theorem read_cache_then_slice_witness :
    lookupA ({ pendingWrites := [], cache := [("x", [1, 2, 3])] } : DfState).cache "x" =
      some [1, 2, 3] ∧
    dfRead { pendingWrites := [], cache := [("x", [1, 2, 3])] } "x" 1 5 (Except.error ()) =
      ({ pendingWrites := [], cache := [("x", [1, 2, 3])] }, some (sliceClamped [1, 2, 3] 1 5)) ∧
    dfRead { pendingWrites := [], cache := [] } "y" 0 2 (Except.ok [7, 8, 9]) =
      ({ pendingWrites := [], cache := insertA [] "y" [7, 8, 9] },
        some (sliceClamped [7, 8, 9] 0 2)) :=
  ⟨rfl,
    (read_cache_then_slice { pendingWrites := [], cache := [("x", [1, 2, 3])] } "x" 1 5
      (Except.error ())).1 [1, 2, 3] rfl,
    (read_cache_then_slice { pendingWrites := [], cache := [] } "y" 0 2
      (Except.ok [7, 8, 9])).2.1 [7, 8, 9] rfl rfl⟩

/-- C2 (corrected): when `flush` has a non-empty queue, passes the
remote-existence precondition and the upload then fails, it does surface
the error — but the pending-write queue has already been cleared by
`apply_pending_writes_on_data`, which removes the queue before the upload
is attempted.  The claim's "queue left unchanged" is therefore false; this
is what actually holds. -/
theorem flush_upload_failure_clears_queue (st : DfState) (env : RemoteEnv)
    (id : String) (q : List PendingWrite)
    (hq : lookupA st.pendingWrites id = some q)
    (hc : env.containsRes ≠ Except.ok false)
    (hu : env.uploadOk = false) :
    (dfFlush st env id).2.1 = Except.error () ∧
    lookupA (dfFlush st env id).1.pendingWrites id = none := by
  unfold dfFlush
  cases henv : env.containsRes with
  | error e =>
    simp [hq, hu, applyPendingWritesOnData, lookupA_eraseA_self]
  | ok b =>
    cases b with
    | false => exact absurd henv hc
    | true =>
      simp [hq, hu, applyPendingWritesOnData, lookupA_eraseA_self]

/-- Witness for C2's corrected statement: one queued write on `"x"`, the
file exists remotely, the upload fails; `flush` errors and the queue for
`"x"` is gone. -/
theorem flush_upload_failure_clears_queue_witness :
    lookupA ({ pendingWrites := [("x", [⟨"x", 0, [1]⟩])], cache := [] } : DfState).pendingWrites
      "x" = some [⟨"x", 0, [1]⟩] ∧
    ({ containsRes := Except.ok true, downloadRes := Except.ok [7],
        uploadOk := false } : RemoteEnv).containsRes ≠ Except.ok false ∧
    (dfFlush { pendingWrites := [("x", [⟨"x", 0, [1]⟩])], cache := [] }
      { containsRes := Except.ok true, downloadRes := Except.ok [7], uploadOk := false }
      "x").2.1 = Except.error () ∧
    lookupA (dfFlush { pendingWrites := [("x", [⟨"x", 0, [1]⟩])], cache := [] }
      { containsRes := Except.ok true, downloadRes := Except.ok [7], uploadOk := false }
      "x").1.pendingWrites "x" = none :=
  ⟨by decide, by decide,
    (flush_upload_failure_clears_queue _ _ "x" [⟨"x", 0, [1]⟩] (by decide) (by decide) rfl).1,
    (flush_upload_failure_clears_queue _ _ "x" [⟨"x", 0, [1]⟩] (by decide) (by decide) rfl).2⟩

/-- Counterexample for C2 as stated: the same run returns an error while
the queue for `"x"` — previously holding one write — is now empty, so the
queue is not "left unchanged". -/
theorem flush_claim_cex :
    (dfFlush { pendingWrites := [("x", [⟨"x", 0, [1]⟩])], cache := [] }
      { containsRes := Except.ok true, downloadRes := Except.ok [7], uploadOk := false }
      "x").2.1 = Except.error () ∧
    lookupA (dfFlush { pendingWrites := [("x", [⟨"x", 0, [1]⟩])], cache := [] }
      { containsRes := Except.ok true, downloadRes := Except.ok [7], uploadOk := false }
      "x").1.pendingWrites "x" = none ∧
    lookupA ({ pendingWrites := [("x", [⟨"x", 0, [1]⟩])], cache := [] } : DfState).pendingWrites
      "x" ≠ none := by
  decide

/-- C3 (corrected): the content uploaded by `flush` is the insertion-order
fold of the queued writes over the downloaded content — but each replay
step resizes the buffer to exactly `offset + len(data)`, truncating any
longer content, so bytes beyond the last write's end are discarded rather
than preserved; the step's closed form and resulting length are given. -/
theorem flush_replays_in_order_truncating (st : DfState) (env : RemoteEnv)
    (id : String) (q : List PendingWrite) (d : List Nat)
    (hq : lookupA st.pendingWrites id = some q)
    (hids : ∀ w ∈ q, w.wid = id)
    (hc : env.containsRes ≠ Except.ok false)
    (hd : env.downloadRes = Except.ok d) :
    (dfFlush st env id).2.2 = some (q.foldl applyWrite d) ∧
    (∀ v w, applyWrite v w =
      v.take w.offset ++ List.replicate (w.offset - v.length) 0 ++ w.data) ∧
    (∀ v w, (applyWrite v w).length = w.offset + w.data.length) := by
  refine ⟨?_, fun v w => applyWrite_eq v w, fun v w => applyWrite_length v w⟩
  have hfilter : q.filter (fun w => w.wid == id) = q := by
    rw [List.filter_eq_self]
    intro a ha
    simpa using hids a ha
  have hdl : (Except.ok d : Except Unit (List Nat)).toOption.getD [] = d := rfl
  unfold dfFlush
  cases henv : env.containsRes with
  | error e =>
    cases hub : env.uploadOk <;>
      simp [hq, hd, hub, applyPendingWritesOnData, hfilter, hdl]
  | ok b =>
    cases b with
    | false => exact absurd henv hc
    | true =>
      cases hub : env.uploadOk <;>
        simp [hq, hd, hub, applyPendingWritesOnData, hfilter, hdl]

/-- Witness for C3's corrected statement: two queued writes on `"x"` are
replayed in order over the downloaded `[1,2,3,4,5]`. -/
theorem flush_replays_in_order_truncating_witness :
    lookupA ({ pendingWrites := [("x", [⟨"x", 0, [9]⟩, ⟨"x", 3, [7, 7]⟩])], cache := [] } :
        DfState).pendingWrites "x" =
      some [⟨"x", 0, [9]⟩, ⟨"x", 3, [7, 7]⟩] ∧
    (dfFlush { pendingWrites := [("x", [⟨"x", 0, [9]⟩, ⟨"x", 3, [7, 7]⟩])], cache := [] }
      { containsRes := Except.ok true, downloadRes := Except.ok [1, 2, 3, 4, 5],
        uploadOk := true } "x").2.2 =
      some ([⟨"x", 0, [9]⟩, ⟨"x", 3, [7, 7]⟩].foldl applyWrite [1, 2, 3, 4, 5]) :=
  ⟨by decide,
    (flush_replays_in_order_truncating _ _ "x" [⟨"x", 0, [9]⟩, ⟨"x", 3, [7, 7]⟩]
      [1, 2, 3, 4, 5] (by decide) (by decide) (by decide) rfl).1⟩

/-- Counterexample for C3 as stated: replaying the single write
`{offset 0, data [9]}` over `[1,2,3,4,5]` yields `[9]` — the code's
unconditional resize truncates the buffer — whereas the claim's semantics
(grow only if shorter, preserve bytes beyond `offset+len` of the last
write) yields `[9,2,3,4,5]`. -/
theorem apply_writes_truncate_cex :
    (applyPendingWritesOnData { pendingWrites := [("x", [⟨"x", 0, [9]⟩])], cache := [] }
      "x" [1, 2, 3, 4, 5]).2 = [9] ∧
    List.foldl specApplyWrite [1, 2, 3, 4, 5] [⟨"x", 0, [9]⟩] = [9, 2, 3, 4, 5] ∧
    ([9] : List Nat) ≠ [9, 2, 3, 4, 5] := by
  decide

/-- C7 (corrected): a write upcall on an existing inode whose file carries a
drive id enqueues the write and reports `len(bytes)` written — but the
locally stored size becomes exactly `off + len(bytes)`, not
`max(previous size, off + len(bytes))`: the source assigns
`file.attr.size = offset + data.len()`, so a short write at offset 0 into a
larger file does shrink the kernel-visible size. -/
theorem write_sets_size_exactly (st : SysState) (ino : Nat) (offset : Int)
    (data : List Nat) (f : MFile) (did : String)
    (hf : lookupA st.fm.files ino = some f)
    (hd : f.driveId = some did) :
    coreStep st (Upcall.writeU ino offset data) =
      Except.ok ({ st with
        fm := fmSetFile st.fm ino { f with size := (max offset 0).toNat + data.length },
        df := dfWrite st.df did (max offset 0).toNat data },
        ReplyM.written data.length) := by
  have h1 : fmGetDriveId st.fm (FileIdM.inode ino) = Except.ok (some did) := by
    simp [fmGetDriveId, fmGetFile, fmGetInode, hf, hd]
  unfold coreStep
  simp [h1, hf]

/-- Witness for C7's corrected statement: writing one byte at offset 0 into
the size-5 file with inode 4 of `stEx`. -/
theorem write_sets_size_exactly_witness :
    lookupA stEx.fm.files 4 = some fileAEx ∧
    fileAEx.driveId = some "a" ∧
    coreStep stEx (Upcall.writeU 4 0 [9]) =
      Except.ok ({ stEx with
        fm := fmSetFile stEx.fm 4
          { fileAEx with size := (max (0 : Int) 0).toNat + [9].length },
        df := dfWrite stEx.df "a" (max (0 : Int) 0).toNat [9] },
        ReplyM.written [9].length) :=
  ⟨by decide, by decide,
    write_sets_size_exactly stEx 4 0 [9] fileAEx "a" (by decide) (by decide)⟩

/-- Counterexample for C7 as stated: inode 4 of `stEx` has size 5; after
`write(4, 0, [9])` the write is enqueued and the reply says 1 byte
written, but the stored size is 1, not `max 5 1 = 5` as claimed. -/
theorem write_shrinks_size_cex :
    ((coreStep stEx (Upcall.writeU 4 0 [9])).toOption.bind
      (fun p => (lookupA p.1.fm.files 4).map (fun f => f.size))) = some 1 ∧
    ((coreStep stEx (Upcall.writeU 4 0 [9])).toOption.map (fun p => p.2)) =
      some (ReplyM.written 1) ∧
    ((coreStep stEx (Upcall.writeU 4 0 [9])).toOption.bind
      (fun p => lookupA p.1.df.pendingWrites "a")) = some [⟨"a", 0, [9]⟩] ∧
    (1 : Nat) ≠ max 5 1 := by
  decide

/-- C4 (corrected): on success `delete_locally` removes the whole subtree
from the tree but erases the `files`, `node_ids` and `drive_ids` entries of
the deleted node only; every other key — in particular every descendant's
inode — keeps its entry, so a descendant can still be reached through the
indexes while no longer being in the tree. -/
theorem delete_locally_erases_only_target (fm : FM) (id : FileIdM)
    (nid ino : Nat) (did : String) (t : RTree) (t2 : Option RTree)
    (h1 : fmGetNodeId fm id = Except.ok (some nid))
    (h2 : fmGetInode fm id = Except.ok (some ino))
    (h3 : fmGetDriveId fm id = Except.ok (some did))
    (h4 : fm.tree = some t)
    (h5 : treeRemove t nid = some t2) :
    fmDeleteLocally fm id = Except.ok { fm with
      tree := t2, files := eraseA fm.files ino,
      nodeIds := eraseA fm.nodeIds ino, driveIds := eraseA fm.driveIds did } ∧
    (∀ j, j ≠ ino → lookupA (eraseA fm.files ino) j = lookupA fm.files j) ∧
    (∀ j, j ≠ ino → lookupA (eraseA fm.nodeIds ino) j = lookupA fm.nodeIds j) ∧
    (∀ e, e ≠ did → lookupA (eraseA fm.driveIds did) e = lookupA fm.driveIds e) ∧
    lookupA (eraseA fm.files ino) ino = none := by
  refine ⟨?_, fun j hj => lookupA_eraseA_ne _ _ _ hj,
    fun j hj => lookupA_eraseA_ne _ _ _ hj,
    fun e he => lookupA_eraseA_ne _ _ _ he, lookupA_eraseA_self _ _⟩
  unfold fmDeleteLocally
  simp [h1, h2, h3, h4, h5]

/-- Witness for C4's corrected statement: deleting inode 4 of `fmEx` (whose
subtree also holds inode 5). -/
theorem delete_locally_erases_only_target_witness :
    fmGetNodeId fmEx (FileIdM.inode 4) = Except.ok (some 2) ∧
    fmGetInode fmEx (FileIdM.inode 4) = Except.ok (some 4) ∧
    fmGetDriveId fmEx (FileIdM.inode 4) = Except.ok (some "a") ∧
    treeRemove treeEx 2 = some (some (RTree.node ⟨1, 1⟩ [])) ∧
    fmDeleteLocally fmEx (FileIdM.inode 4) = Except.ok { fmEx with
      tree := some (RTree.node ⟨1, 1⟩ []), files := eraseA fmEx.files 4,
      nodeIds := eraseA fmEx.nodeIds 4, driveIds := eraseA fmEx.driveIds "a" } :=
  ⟨by decide, by decide, by decide, rfl,
    (delete_locally_erases_only_target fmEx (FileIdM.inode 4) 2 4 "a" treeEx
      (some (RTree.node ⟨1, 1⟩ [])) (by decide) (by decide) (by decide) rfl rfl).1⟩

/-- Counterexample for C4 as stated: after `delete_locally` succeeds on
inode 4 of `fmEx`, the descendant inode 5 is still present in the
inode→File map, the inode→node index and the drive-id→inode index, while
its node (node id 3) is gone from the tree — so the indexes do not agree
with the tree. -/
theorem delete_locally_stale_children_cex :
    ((fmDeleteLocally fmEx (FileIdM.inode 4)).toOption.bind
      (fun fm2 => lookupA fm2.files 5)) = some fileBEx ∧
    ((fmDeleteLocally fmEx (FileIdM.inode 4)).toOption.bind
      (fun fm2 => lookupA fm2.nodeIds 5)) = some 3 ∧
    ((fmDeleteLocally fmEx (FileIdM.inode 4)).toOption.bind
      (fun fm2 => lookupA fm2.driveIds "b")) = some 5 ∧
    ((fmDeleteLocally fmEx (FileIdM.inode 4)).toOption.bind
      (fun fm2 => fm2.tree.bind (fun t => treeGetT t 3))) = none := by
  decide

theorem fmGetChildrenI_total (fm : FM)
    (hcons : ∀ q ∈ fm.nodeIds, (fm.tree.bind (fun t => treeChildrenT t q.2)).isSome = true)
    (p : Nat) : ∃ r, fmGetChildrenI fm p = Except.ok r := by
  cases hnp : lookupA fm.nodeIds p with
  | none => exact ⟨none, by simp [fmGetChildrenI, hnp]⟩
  | some nid =>
    rcases lookupA_mem _ _ _ hnp with ⟨q, hq, _, hqv⟩
    have hs := hcons q hq
    rw [hqv] at hs
    cases hk : fm.tree.bind (fun t => treeChildrenT t nid) with
    | none => rw [hk] at hs; simp at hs
    | some kids =>
      exact ⟨some (kids.filterMap (fun nd => lookupA fm.files nd.ino)),
        by simp [fmGetChildrenI, hnp, hk]⟩

theorem fmGetInode_total (fm : FM)
    (hcons : ∀ q ∈ fm.nodeIds, (fm.tree.bind (fun t => treeChildrenT t q.2)).isSome = true)
    (id : FileIdM) : ∃ r, fmGetInode fm id = Except.ok r := by
  cases id with
  | inode i => exact ⟨_, rfl⟩
  | driveId d => exact ⟨_, rfl⟩
  | nodeId n => exact ⟨_, rfl⟩
  | parentAndName p nm =>
    rcases fmGetChildrenI_total fm hcons p with ⟨r, hr⟩
    cases r with
    | none => exact ⟨none, by simp [fmGetInode, hr]⟩
    | some cs =>
      exact ⟨(cs.find? (fun c => c.displayName == nm)).map (fun c => c.ino),
        by simp [fmGetInode, hr]⟩

/-- C8 (corrected): `get_inode` and `get_drive_id` are total over all four
`FileId` variants (under the index-tree consistency every reachable state
satisfies: node ids stored in the inode→node index are live tree nodes),
and `get_node_id` is total on `Inode`, `NodeId` and `ParentAndName` — but
on a `DriveId` that is present in no index it panics (the source unwraps
`get_inode(..)` there), rather than returning `None`. -/
theorem lookups_totality (fm : FM)
    (hcons : ∀ q ∈ fm.nodeIds, (fm.tree.bind (fun t => treeChildrenT t q.2)).isSome = true) :
    (∀ id, ∃ r, fmGetInode fm id = Except.ok r) ∧
    (∀ id, ∃ r, fmGetDriveId fm id = Except.ok r) ∧
    (∀ i, fmGetNodeId fm (FileIdM.inode i) = Except.ok (lookupA fm.nodeIds i)) ∧
    (∀ n, fmGetNodeId fm (FileIdM.nodeId n) = Except.ok (some n)) ∧
    (∀ p nm, ∃ r, fmGetNodeId fm (FileIdM.parentAndName p nm) = Except.ok r) ∧
    (∀ d, lookupA fm.driveIds d = none →
      fmGetNodeId fm (FileIdM.driveId d) = Except.error AbortKind.panicked) ∧
    (∀ d i, lookupA fm.driveIds d = some i →
      fmGetNodeId fm (FileIdM.driveId d) = Except.ok (lookupA fm.nodeIds i)) := by
  refine ⟨fmGetInode_total fm hcons, ?_, fun i => rfl, fun n => rfl, ?_, ?_, ?_⟩
  · intro id
    rcases fmGetInode_total fm hcons id with ⟨r, hr⟩
    cases r with
    | none => exact ⟨none, by simp [fmGetDriveId, fmGetFile, hr]⟩
    | some i =>
      cases hfi : lookupA fm.files i with
      | none => exact ⟨none, by simp [fmGetDriveId, fmGetFile, hr, hfi]⟩
      | some f => exact ⟨f.driveId, by simp [fmGetDriveId, fmGetFile, hr, hfi]⟩
  · intro p nm
    rcases fmGetInode_total fm hcons (FileIdM.parentAndName p nm) with ⟨r, hr⟩
    cases r with
    | none => exact ⟨none, by simp [fmGetNodeId, hr]⟩
    | some i => exact ⟨lookupA fm.nodeIds i, by simp [fmGetNodeId, hr]⟩
  · intro d hd
    simp [fmGetNodeId, hd]
  · intro d i hd
    simp [fmGetNodeId, hd]

/-- Witness for C8's corrected statement on the consistent state `fmEx`:
the consistency hypothesis holds, `get_inode` answers on a `ParentAndName`,
and `get_node_id` panics on the unknown drive id `"zzz"` while answering on
the known drive id `"a"`. -/
theorem lookups_totality_witness :
    (∀ q ∈ fmEx.nodeIds, (fmEx.tree.bind (fun t => treeChildrenT t q.2)).isSome = true) ∧
    lookupA fmEx.driveIds "zzz" = none ∧
    fmGetNodeId fmEx (FileIdM.driveId "zzz") = Except.error AbortKind.panicked ∧
    lookupA fmEx.driveIds "a" = some 4 ∧
    fmGetNodeId fmEx (FileIdM.driveId "a") = Except.ok (lookupA fmEx.nodeIds 4) :=
  ⟨by decide, by decide,
    (lookups_totality fmEx (by decide)).2.2.2.2.2.1 "zzz" (by decide),
    by decide,
    (lookups_totality fmEx (by decide)).2.2.2.2.2.2 "a" 4 (by decide)⟩

/-- Counterexample for C8 as stated: `get_node_id` is not total —
handed `FileId::DriveId("zzz")` with `"zzz"` present in no index, it
panics (`get_inode(..).unwrap()` on `None`) instead of returning a value. -/
theorem get_node_id_unknown_drive_id_panics_cex :
    fmGetNodeId fmEx (FileIdM.driveId "zzz") = Except.error AbortKind.panicked ∧
    lookupA fmEx.driveIds "zzz" = none := by
  decide

/-- C5 (corrected): in `FileManager::sync`, changes with no attached file
are skipped, and a failure surfacing as a Rust `Err` in the trashed,
removed or modified branch is logged and skipped, the batch continuing —
but panics are not caught by that logging: a change announcing a file
unknown locally panics inside `add_file_locally`'s `get_node_id` when its
declared remote parent is unknown (an `Err` there would equally propagate
through `?`), and a modified change for a known file whose new remote
parent is unknown panics inside `move_locally`'s `get_node_id`; either
way sync aborts with the remaining changes unprocessed. -/
theorem sync_skip_and_abort :
    (∀ (fm : FM) (c : ChangeM) (cs : List ChangeM), c.file = none →
      processChanges fm (c :: cs) = processChanges fm cs) ∧
    (∀ (fm : FM) (c : ChangeM) (cs : List ChangeM) (dF : DrFile) (fid nm p : String),
      c.file = some dF → c.fileId = some fid →
      lookupA fm.driveIds fid = none →
      dF.name = some nm → dF.parent = some p →
      lookupA fm.driveIds p = none →
      processChanges fm (c :: cs) =
        ({ fm with lastInode := fm.lastInode + 1 }, some AbortKind.panicked)) ∧
    (∀ (fm : FM) (c : ChangeM) (cs : List ChangeM) (dF : DrFile) (fid : String),
      c.file = some dF → c.fileId = some fid →
      (lookupA fm.driveIds fid).isSome = true →
      dF.trashed = some true →
      (fmMoveFileToTrash fm (FileIdM.driveId fid) false true).2 = some AbortKind.errored →
      processChanges fm (c :: cs) =
        processChanges (fmMoveFileToTrash fm (FileIdM.driveId fid) false true).1 cs) ∧
    (∀ (fm : FM) (c : ChangeM) (cs : List ChangeM) (dF : DrFile) (fid : String),
      c.file = some dF → c.fileId = some fid →
      (lookupA fm.driveIds fid).isSome = true →
      (dF.trashed == some true) = false →
      c.removed = some true →
      fmDeleteLocally fm (FileIdM.driveId fid) = Except.error AbortKind.errored →
      processChanges fm (c :: cs) = processChanges fm cs) ∧
    (∀ (fm : FM) (c : ChangeM) (cs : List ChangeM) (dF : DrFile) (fid np : String)
      (oldF newF : MFile),
      c.file = some dF → c.fileId = some fid →
      (lookupA fm.driveIds fid).isSome = true →
      (dF.trashed == some true) = false →
      (c.removed == some true) = false →
      fmGetFile fm (FileIdM.driveId fid) = Except.ok (some oldF) →
      fromDriveFile oldF.ino dF = Except.ok newF →
      newF.driveParent = some np →
      fmMoveLocally (fmSetFile fm oldF.ino newF) (FileIdM.driveId fid)
        (FileIdM.driveId np) = Except.error AbortKind.errored →
      processChanges fm (c :: cs) = processChanges (fmSetFile fm oldF.ino newF) cs) ∧
    (∀ (fm : FM) (c : ChangeM) (cs : List ChangeM) (dF : DrFile) (fid np : String)
      (oldF newF : MFile),
      c.file = some dF → c.fileId = some fid →
      (lookupA fm.driveIds fid).isSome = true →
      (dF.trashed == some true) = false →
      (c.removed == some true) = false →
      fmGetFile fm (FileIdM.driveId fid) = Except.ok (some oldF) →
      fromDriveFile oldF.ino dF = Except.ok newF →
      newF.driveParent = some np →
      fmMoveLocally (fmSetFile fm oldF.ino newF) (FileIdM.driveId fid)
        (FileIdM.driveId np) = Except.error AbortKind.panicked →
      processChanges fm (c :: cs) =
        (fmSetFile fm oldF.ino newF, some AbortKind.panicked)) := by
  refine ⟨?_, ?_, ?_, ?_, ?_, ?_⟩
  · intro fm c cs h
    simp [processChanges, processChange, h]
  · intro fm c cs dF fid nm p h1 h2 h3 h4 h5 h6
    have hpc : processChange fm c =
        ({ fm with lastInode := fm.lastInode + 1 }, some AbortKind.panicked) := by
      simp [processChange, h1, h2, fmContains, h3, fromDriveFile, h4,
        MFile.driveParent, h5, fmAddFileLocally, fmGetNodeId, h6]
    simp [processChanges, hpc]
  · intro fm c cs dF fid h1 h2 h3 h4 h5
    have hpc : processChange fm c =
        ((fmMoveFileToTrash fm (FileIdM.driveId fid) false true).1, none) := by
      rcases hmv : fmMoveFileToTrash fm (FileIdM.driveId fid) false true with ⟨fm3, r⟩
      rw [hmv] at h5
      simp only at h5
      subst h5
      simp [processChange, h1, h2, fmContains, h3, h4, hmv]
    simp [processChanges, hpc]
  · intro fm c cs dF fid h1 h2 h3 h4 h5 h6
    have hpc : processChange fm c = (fm, none) := by
      simp [processChange, h1, h2, fmContains, h3, h4, h5, h6]
    simp [processChanges, hpc]
  · intro fm c cs dF fid np oldF newF h1 h2 h3 h4 h5 hgf hfd hnp hmv
    have hpc : processChange fm c = (fmSetFile fm oldF.ino newF, none) := by
      simp [processChange, h1, h2, fmContains, h3, h4, h5, hgf, hfd, hnp, hmv]
    simp [processChanges, hpc]
  · intro fm c cs dF fid np oldF newF h1 h2 h3 h4 h5 hgf hfd hnp hmv
    have hpc : processChange fm c =
        (fmSetFile fm oldF.ino newF, some AbortKind.panicked) := by
      simp [processChange, h1, h2, fmContains, h3, h4, h5, hgf, hfd, hnp, hmv]
    simp [processChanges, hpc]

/-- Witness for C5's corrected statement, one instance per conjunct: a
no-file change over `fmEx` is skipped; a change announcing the unknown
file `"new1"` under the unknown parent `"unknownP"` aborts the batch with
a panic; a trashed-file change for the known drive id `"b"` whose local
move to Trash fails (no Trash node in `fmEx`) is skipped; a removal of the
known drive id `"c"` of `fmEx2` whose `delete_locally` fails with an `Err`
(stale index, no node id) is skipped; and a modified change for the known
drive id `"b"` whose new remote parent `"nowhere"` is unknown panics in
`move_locally` and aborts the batch. -/
theorem sync_skip_and_abort_witness :
    processChanges fmEx [{ fileId := none, file := none, removed := none }] =
      processChanges fmEx [] ∧
    processChanges fmEx
      [{ fileId := some "new1",
         file := some { fid := some "new1", name := some "n.txt", parent := some "unknownP", mimeType := none, trashed := none, size := some 3 },
         removed := none }] =
      ({ fmEx with lastInode := fmEx.lastInode + 1 }, some AbortKind.panicked) ∧
    processChanges fmEx
      [{ fileId := some "b",
         file := some { fid := some "b", name := some "b.txt", parent := some "a", mimeType := none, trashed := some true, size := some 7 },
         removed := none }] =
      processChanges (fmMoveFileToTrash fmEx (FileIdM.driveId "b") false true).1 [] ∧
    processChanges fmEx2
      [{ fileId := some "c",
         file := some { fid := some "c", name := some "c.txt", parent := some "root", mimeType := none, trashed := none, size := some 1 },
         removed := some true }] =
      processChanges fmEx2 [] ∧
    processChanges fmEx
      [{ fileId := some "b",
         file := some { fid := some "b", name := some "b2.txt", parent := some "nowhere", mimeType := none, trashed := none, size := some 7 },
         removed := none }] =
      (fmSetFile fmEx 5
        { name := "b2.txt", ino := 5, size := 7, isDir := false, identicalNameId := none,
          driveFile := some { fid := some "b", parent := some "nowhere", trashed := none } },
        some AbortKind.panicked) :=
  ⟨sync_skip_and_abort.1 fmEx { fileId := none, file := none, removed := none } [] rfl,
    sync_skip_and_abort.2.1 fmEx _ []
      { fid := some "new1", name := some "n.txt", parent := some "unknownP", mimeType := none, trashed := none, size := some 3 }
      "new1" "n.txt" "unknownP" rfl rfl (by decide) rfl rfl (by decide),
    sync_skip_and_abort.2.2.1 fmEx _ []
      { fid := some "b", name := some "b.txt", parent := some "a", mimeType := none, trashed := some true, size := some 7 }
      "b" rfl rfl (by decide) rfl (by decide),
    sync_skip_and_abort.2.2.2.1 fmEx2 _ []
      { fid := some "c", name := some "c.txt", parent := some "root", mimeType := none, trashed := none, size := some 1 }
      "c" rfl rfl (by decide) (by decide) rfl rfl,
    sync_skip_and_abort.2.2.2.2.2 fmEx _ []
      { fid := some "b", name := some "b2.txt", parent := some "nowhere", mimeType := none, trashed := none, size := some 7 }
      "b" "nowhere" fileBEx
      { name := "b2.txt", ino := 5, size := 7, isDir := false, identicalNameId := none,
        driveFile := some { fid := some "b", parent := some "nowhere", trashed := none } }
      rfl rfl (by decide) (by decide) (by decide) (by decide) (by decide) (by decide) rfl⟩

/-- Counterexample for C5 as stated: a batch of two changes — the first a
new file with an unknown remote parent, the second a removal of the known
file with drive id `"b"` — aborts at the first change: `sync` does not
return successfully, and the second change is never applied (inode 5 is
still present afterwards). -/
theorem sync_abort_cex :
    (processChanges fmEx
      [{ fileId := some "new1",
         file := some { fid := some "new1", name := some "n.txt", parent := some "unknownP", mimeType := none, trashed := none, size := some 3 },
         removed := none },
       { fileId := some "b",
         file := some { fid := some "b", name := some "b.txt", parent := some "a", mimeType := none, trashed := none, size := some 7 },
         removed := some true }]).2 = some AbortKind.panicked ∧
    lookupA (processChanges fmEx
      [{ fileId := some "new1",
         file := some { fid := some "new1", name := some "n.txt", parent := some "unknownP", mimeType := none, trashed := none, size := some 3 },
         removed := none },
       { fileId := some "b",
         file := some { fid := some "b", name := some "b.txt", parent := some "a", mimeType := none, trashed := none, size := some 7 },
         removed := some true }]).1.files 5 = some fileBEx := by
  decide

/-- C1: with the spec-modelled read-only flag set, each of the six mutating
upcalls (`write`, `create`, `mkdir`, `unlink`, `rename`, `setattr`) replies
`EROFS` with the system state returned unchanged, while every other upcall
(`read`, `lookup`, `getattr`, `readdir`, `statfs`) behaves exactly as in
non-read-only mode. -/
theorem readonly_gate_blocks_mutations (st : SysState) (u : Upcall) :
    (isMutatingUpcall u = true →
      gcsfStep true st u = Except.ok (st, ReplyM.errR EROFS)) ∧
    (isMutatingUpcall u = false →
      gcsfStep true st u = coreStep st u ∧ gcsfStep false st u = coreStep st u) := by
  constructor
  · intro h
    simp [gcsfStep, h]
  · intro h
    constructor <;> simp [gcsfStep, h]

/-- Witness for C1: over `stEx`, a write upcall is refused with `EROFS` and
the state is unchanged, while a getattr upcall runs the same core step as
in non-read-only mode. -/
theorem readonly_gate_blocks_mutations_witness :
    isMutatingUpcall (Upcall.writeU 4 0 [9]) = true ∧
    gcsfStep true stEx (Upcall.writeU 4 0 [9]) = Except.ok (stEx, ReplyM.errR EROFS) ∧
    isMutatingUpcall (Upcall.getattrU 4) = false ∧
    gcsfStep true stEx (Upcall.getattrU 4) = coreStep stEx (Upcall.getattrU 4) :=
  ⟨rfl, (readonly_gate_blocks_mutations stEx (Upcall.writeU 4 0 [9])).1 rfl, rfl,
    ((readonly_gate_blocks_mutations stEx (Upcall.getattrU 4)).2 rfl).1⟩

theorem findIdx_map_range (l : List MFile) (h : (l.map MFile.ino).Nodup) :
    l.map (fun c => l.findIdx (fun d => d.ino == c.ino)) = List.range l.length := by
  induction l with
  | nil => rfl
  | cons x xs ih =>
    simp only [List.map_cons, List.length_cons]
    rw [List.range_succ_eq_map]
    have hx : x.ino ∉ xs.map MFile.ino := by
      simp only [List.map_cons, List.nodup_cons] at h
      exact h.1
    have hxs : (xs.map MFile.ino).Nodup := by
      simp only [List.map_cons, List.nodup_cons] at h
      exact h.2
    congr 1
    · rw [List.findIdx_cons]
      simp
    · have hcongr : xs.map (fun c => (x :: xs).findIdx (fun d => d.ino == c.ino)) =
          xs.map (fun c => xs.findIdx (fun d => d.ino == c.ino) + 1) := by
        apply List.map_congr_left
        intro c hc
        rw [List.findIdx_cons]
        have hne : (x.ino == c.ino) = false := by
          simp only [beq_eq_false_iff_ne, ne_eq]
          intro hheq
          apply hx
          rw [hheq]
          exact List.mem_map_of_mem MFile.ino hc
        rw [hne]
        simp
      rw [hcongr]
      have hpull : xs.map (fun c => xs.findIdx (fun d => d.ino == c.ino) + 1) =
          (xs.map (fun c => xs.findIdx (fun d => d.ino == c.ino))).map Nat.succ := by
        rw [List.map_map]
        rfl
      rw [hpull, ih hxs]

theorem recalc_suffix_invariant (cs : List MFile) (h : (cs.map MFile.ino).Nodup)
    (b : String) :
    (((recalcSuffixes cs).filter (fun c => c.name == b)).map
      (fun c => c.identicalNameId)).Perm
      (expectedSuffixes ((cs.filter (fun c => c.name == b)).length)) := by
  have hfm : (recalcSuffixes cs).filter (fun c => c.name == b) =
      (cs.filter (fun c => c.name == b)).map (assignSuffix cs) := by
    unfold recalcSuffixes
    rw [List.filter_map]
    rfl
  rw [hfm]
  have hgnodup : ((cs.filter (fun c => c.name == b)).map MFile.ino).Nodup :=
    h.sublist ((List.filter_sublist cs).map MFile.ino)
  have key : ∀ c ∈ cs.filter (fun c => c.name == b),
      (assignSuffix cs c).identicalNameId =
        (fun idx => if idx = 0 then none else some idx)
          ((List.insertionSort (fun a b2 => dkeyLe a b2 = true)
            (cs.filter (fun c => c.name == b))).findIdx (fun d => d.ino == c.ino)) := by
    intro c hc
    have hcb : c.name = b := by
      have hcb0 := (List.mem_filter.mp hc).2
      simpa using hcb0
    unfold assignSuffix
    dsimp only
    rw [hcb]
  have hmm : ((cs.filter (fun c => c.name == b)).map (assignSuffix cs)).map
      (fun c => c.identicalNameId) =
      ((cs.filter (fun c => c.name == b)).map
        (fun c => (List.insertionSort (fun a b2 => dkeyLe a b2 = true)
          (cs.filter (fun c => c.name == b))).findIdx (fun d => d.ino == c.ino))).map
        (fun idx => if idx = 0 then none else some idx) := by
    rw [List.map_map, List.map_map]
    exact List.map_congr_left key
  rw [hmm]
  have hperm := List.perm_insertionSort (fun a b2 => dkeyLe a b2 = true)
    (cs.filter (fun c => c.name == b))
  have hsnodup : ((List.insertionSort (fun a b2 => dkeyLe a b2 = true)
      (cs.filter (fun c => c.name == b))).map MFile.ino).Nodup :=
    ((hperm.map MFile.ino).nodup_iff).mpr hgnodup
  have hrange := findIdx_map_range _ hsnodup
  have hfr : ((cs.filter (fun c => c.name == b)).map
      (fun c => (List.insertionSort (fun a b2 => dkeyLe a b2 = true)
        (cs.filter (fun c => c.name == b))).findIdx (fun d => d.ino == c.ino))).Perm
      (List.range ((cs.filter (fun c => c.name == b)).length)) := by
    have hstep := (hperm.symm).map
      (fun c => (List.insertionSort (fun a b2 => dkeyLe a b2 = true)
        (cs.filter (fun c => c.name == b))).findIdx (fun d => d.ino == c.ino))
    rw [hrange] at hstep
    rwa [hperm.length_eq] at hstep
  exact hfr.map (fun idx => if idx = 0 then none else some idx)

/-- C6: under the spec-modelled duplicate-suffix recalculation, after every
add, rename-into-a-parent, and delete, for every base name with k sharing
children the `identical_name_id` values form exactly the multiset
{None, 1, …, k−1}, positions being assigned by sorting the group by drive
id with None first; in particular two `"p.jpg"` children of drive ids
`"a"`, `"b"` are reported as `"p.jpg"` and `"p.jpg.1"`, and removing the
suffix-free child renames the remaining one back to the bare `"p.jpg"`. -/
theorem suffix_invariant_after_ops :
    (∀ (cs : List MFile) (f : MFile) (b : String),
      ((cs ++ [f]).map MFile.ino).Nodup →
      (((specAddChild cs f).filter (fun c => c.name == b)).map
        (fun c => c.identicalNameId)).Perm
        (expectedSuffixes (((cs ++ [f]).filter (fun c => c.name == b)).length))) ∧
    (∀ (cs : List MFile) (i : Nat) (b : String),
      ((cs.filter (fun c => !(c.ino == i))).map MFile.ino).Nodup →
      (((specRemoveChild cs i).filter (fun c => c.name == b)).map
        (fun c => c.identicalNameId)).Perm
        (expectedSuffixes (((cs.filter (fun c => !(c.ino == i))).filter
          (fun c => c.name == b)).length))) ∧
    (∀ (cs : List MFile) (f : MFile) (newName b : String),
      ((cs ++ [{ f with name := newName }]).map MFile.ino).Nodup →
      (((specRenameInto cs f newName).filter (fun c => c.name == b)).map
        (fun c => c.identicalNameId)).Perm
        (expectedSuffixes ((((cs ++ [{ f with name := newName }] : List MFile)).filter
          (fun c => c.name == b)).length))) ∧
    (specAddChild (specAddChild [] filePaEx) filePbEx).map MFile.displayName =
      ["p.jpg", "p.jpg.1"] ∧
    (specRemoveChild (specAddChild (specAddChild [] filePaEx) filePbEx) 101).map
      MFile.displayName = ["p.jpg"] := by
  refine ⟨?_, ?_, ?_, by decide, by decide⟩
  · intro cs f b hnd
    exact recalc_suffix_invariant (cs ++ [f]) hnd b
  · intro cs i b hnd
    exact recalc_suffix_invariant (cs.filter (fun c => !(c.ino == i))) hnd b
  · intro cs f newName b hnd
    exact recalc_suffix_invariant (cs ++ [{ f with name := newName }]) hnd b

/-- Witness for C6: adding the second `"p.jpg"` child to the singleton
directory and deleting a child, at concrete inputs. -/
theorem suffix_invariant_after_ops_witness :
    (([filePaEx] ++ [filePbEx]).map MFile.ino).Nodup ∧
    (((specAddChild [filePaEx] filePbEx).filter (fun c => c.name == "p.jpg")).map
      (fun c => c.identicalNameId)).Perm
      (expectedSuffixes ((([filePaEx] ++ [filePbEx]).filter
        (fun c => c.name == "p.jpg")).length)) ∧
    (((specRemoveChild [filePaEx, filePbEx] 101).filter (fun c => c.name == "p.jpg")).map
      (fun c => c.identicalNameId)).Perm
      (expectedSuffixes (((([filePaEx, filePbEx] : List MFile).filter (fun c => !(c.ino == 101))).filter
        (fun c => c.name == "p.jpg")).length)) :=
  ⟨by decide,
    suffix_invariant_after_ops.1 [filePaEx] filePbEx "p.jpg" (by decide),
    suffix_invariant_after_ops.2.1 [filePaEx, filePbEx] 101 "p.jpg" (by decide)⟩
